import Mathlib

/-!
# Nyrvana-s-Player: `core/convert.c`

A shallow embedding of `src/core/convert.c` and the properties of its
path derivation and of its three-step `ffmpeg` pipeline.

Modelling conventions.

* A C string is the `List Char` of the characters that precede its NUL
  terminator.  String literals of the source are written as Lean string
  literals and used through `String.data`.
* A `char buf[N]` holds a string of at most `N - 1` characters.  `snprintf`
  truncates to that bound; `strcpy`/`strncpy` do not check it, so writing a
  longer string is undefined behaviour, which `main` reports as `none`.
* The outside world is reached through `system` and `remove` only.  Each call
  is recorded as an `Event`; the values they return are supplied by a `World`.
  Console output (`printf`, `fprintf`) has no influence on control flow and is
  left out of the trace.
-/

namespace Convert

/-! ## C library functions used by the program -/

/-- C `strrchr(s, c)`: the offset of the last occurrence of `c` in `s`,
`none` for the NULL pointer returned when `c` does not occur. -/
def strrchr : List Char → Char → Option Nat
  | [], _ => none
  | x :: xs, c =>
    match strrchr xs c with
    | some i => some (i + 1)
    | none => if x = c then some 0 else none

/-- Expansion of a `printf` format whose only conversions are `%s`: each `%s`
is replaced by the next argument, every other character is copied. -/
def formatS : List Char → List (List Char) → List Char
  | [], _ => []
  | '%' :: 's' :: rest, a :: args => a ++ formatS rest args
  | c :: rest, args => c :: formatS rest args

/-- C `snprintf(buf, size, fmt, args...)`: the string left in `buf`, which is
the expansion of the format cut to `size - 1` characters. -/
def snprintf (size : Nat) (fmt : List Char) (args : List (List Char)) : List Char :=
  (formatS fmt args).take (size - 1)

/-- What a call `basename(path)` leaves behind: `path` is the content of the
argument buffer after the call, `name` the string the returned pointer
designates. -/
structure BasenameResult where
  path : List Char
  name : List Char
deriving DecidableEq, Repr

/-- POSIX `basename` of `<libgen.h>`, the function the program calls (the
header is included, so the name resolves to the POSIX function and not to the
GNU one of `<string.h>`).  POSIX lets it modify its argument, and the glibc
implementation (`__xpg_basename`), followed here, does: when the path ends in
`/` and has some other character, a NUL is written over the first trailing
`/`, so the buffer of the caller afterwards holds the path without its trailing
slashes.

* `""` gives `"."`;
* a path without `/` is returned whole;
* a path whose last `/` is followed by something gives what follows it;
* a path made of `/` only gives `"/"` and is left untouched;
* otherwise the trailing slashes are cut off in place and the last component
  of what remains is returned. -/
def basename (path : List Char) : BasenameResult :=
  match path with
  | [] => ⟨path, ['.']⟩
  | _ :: _ =>
    match strrchr path '/' with
    | none => ⟨path, path⟩
    | some i =>
      if i + 1 < path.length then ⟨path, path.drop (i + 1)⟩
      else
        let q := path.rdropWhile (fun c => c = '/')
        match q with
        | [] => ⟨path, ['/']⟩
        | _ :: _ =>
          match strrchr q '/' with
          | none => ⟨q, q⟩
          | some j => ⟨q, q.drop (j + 1)⟩

/-! ## `remove_extension` -/

/-- Source `remove_extension(filename, base)`: the string written into `base`.
With a `.` in `filename`, `len = dot - filename` characters are copied by
`strncpy` and `base[len]` is set to NUL; without one, `strcpy` copies the whole
name. -/
def remove_extension (filename : List Char) : List Char :=
  match strrchr filename '.' with
  | some len => filename.take len
  | none => filename

/-! ## `main` -/

/-- An interaction of the program with its environment. -/
inductive Event where
  | system (command : List Char)
  | remove (path : List Char)
deriving DecidableEq, Repr

/-- The environment: `system k command` is the status returned by the call of
`system` that is preceded by `k` earlier calls, `remove path` the value
returned by `remove`. -/
structure World where
  system : Nat → List Char → Int
  remove : List Char → Int

/-- A terminated run: the calls made, in order, and the exit status. -/
structure Run where
  events : List Event
  status : Int
deriving DecidableEq, Repr

/-- Line 35, `snprintf(output_mp3, sizeof(output_mp3), "core/%s.mp3", base_name)`. -/
def output_mp3 (base_name : List Char) : List Char :=
  snprintf 512 "core/%s.mp3".data [base_name]

/-- Line 36, `snprintf(output_gif, sizeof(output_gif), "core/%s.gif", base_name)`. -/
def output_gif (base_name : List Char) : List Char :=
  snprintf 512 "core/%s.gif".data [base_name]

/-- Line 60, `snprintf(palette_path, sizeof(palette_path), "core/%s_palette.png", base_name)`. -/
def palette_path (base_name : List Char) : List Char :=
  snprintf 512 "core/%s_palette.png".data [base_name]

/-- Format of the audio extraction command (line 45). -/
def audio_format : List Char :=
  "ffmpeg -i \"%s\" -vn -acodec libmp3lame -q:a 2 \"%s\" -y".data

/-- Format of the palette generation command (line 64). -/
def palette_format : List Char :=
  "ffmpeg -i \"%s\" -t 10 -vf \"fps=10,scale=250:250:force_original_aspect_ratio=increase,crop=250:250,palettegen\" \"%s\" -y".data

/-- Format of the image encoding command (line 75). -/
def gif_format : List Char :=
  "ffmpeg -i \"%s\" -i \"%s\" -t 30 -lavfi \"fps=10,scale=250:250:force_original_aspect_ratio=increase,crop=250:250[x];[x][1:v]paletteuse\" \"%s\" -y".data

/-- Lines 44-46: the content of `command` at the first call of `system`. -/
def audio_command (input_path mp3 : List Char) : List Char :=
  snprintf 1024 audio_format [input_path, mp3]

/-- Lines 63-65: the content of `command` at the second call of `system`. -/
def palette_command (input_path palette : List Char) : List Char :=
  snprintf 1024 palette_format [input_path, palette]

/-- Lines 74-76: the content of `command` at the third call of `system`. -/
def gif_command (input_path palette gif : List Char) : List Char :=
  snprintf 1024 gif_format [input_path, palette, gif]

/-- Source `main(argc, argv)`, with `argc = argv.length`.  The result is `none`
when the base name has 256 characters or more: `remove_extension` then writes
past the end of `base_name[256]`, which is undefined behaviour. -/
def main (w : World) (argv : List (List Char)) : Option Run :=
  if argv.length ≠ 2 then
    some ⟨[], 1⟩
  else
    let r := basename (argv.getD 1 [])
    let input_path := r.path
    let filename := r.name
    let base_name := remove_extension filename
    if 256 ≤ base_name.length then none
    else
      let mp3 := output_mp3 base_name
      let gif := output_gif base_name
      let command₁ := audio_command input_path mp3
      if w.system 0 command₁ ≠ 0 then
        some ⟨[Event.system command₁], 1⟩
      else
        let palette := palette_path base_name
        let command₂ := palette_command input_path palette
        if w.system 1 command₂ ≠ 0 then
          some ⟨[Event.system command₁, Event.system command₂], 1⟩
        else
          let command₃ := gif_command input_path palette gif
          if w.system 2 command₃ ≠ 0 then
            some ⟨[Event.system command₁, Event.system command₂, Event.system command₃], 1⟩
          else
            let _ := w.remove palette
            some ⟨[Event.system command₁, Event.system command₂, Event.system command₃,
                   Event.remove palette], 0⟩

/-- The content of `input_path` once `basename` has returned (line 24). -/
def input_path (arg : List Char) : List Char :=
  (basename arg).path

/-- The content of `base_name` after line 32, for the program argument `arg`. -/
def base_name (arg : List Char) : List Char :=
  remove_extension (basename arg).name

/-! ## Facts about the library functions -/

theorem strrchr_eq_none_iff (s : List Char) (c : Char) : strrchr s c = none ↔ c ∉ s := by
  induction s with
  | nil => simp [strrchr]
  | cons x xs ih =>
    cases h : strrchr xs c with
    | some i =>
      have hx : c ∈ xs := by
        by_contra hc
        rw [ih.mpr hc] at h
        cases h
      simp [strrchr, h, hx]
    | none =>
      have hx : c ∉ xs := ih.mp h
      by_cases hxc : x = c
      · simp [strrchr, h, hxc]
      · have hcx : ¬ c = x := fun e => hxc e.symm
        simp [strrchr, h, hxc, hx, hcx]

theorem strrchr_append_cons (a b : List Char) (c : Char) (h : c ∉ b) :
    strrchr (a ++ c :: b) c = some a.length := by
  induction a with
  | nil => simp [strrchr, (strrchr_eq_none_iff b c).mpr h]
  | cons x xs ih => simp [strrchr, ih]

theorem strrchr_some_split (s : List Char) (c : Char) (i : Nat) (h : strrchr s c = some i) :
    ∃ ext, c ∉ ext ∧ s = s.take i ++ c :: ext := by
  induction s generalizing i with
  | nil => simp [strrchr] at h
  | cons x xs ih =>
    cases hxs : strrchr xs c with
    | some j =>
      simp only [strrchr, hxs, Option.some.injEq] at h
      subst h
      obtain ⟨ext, hext, hsplit⟩ := ih j hxs
      refine ⟨ext, hext, ?_⟩
      simp only [List.take_succ_cons, List.cons_append]
      rw [← hsplit]
    | none =>
      simp only [strrchr, hxs] at h
      by_cases hxc : x = c
      · simp only [hxc, if_true, Option.some.injEq] at h
        subst h
        exact ⟨xs, (strrchr_eq_none_iff xs c).mp hxs, by simp [hxc]⟩
      · simp [hxc] at h

theorem strrchr_lt_length (s : List Char) (c : Char) (i : Nat) (h : strrchr s c = some i) :
    i < s.length := by
  induction s generalizing i with
  | nil => simp [strrchr] at h
  | cons x xs ih =>
    cases hxs : strrchr xs c with
    | some j =>
      simp only [strrchr, hxs, Option.some.injEq] at h
      have := ih j hxs
      simp only [List.length_cons]
      omega
    | none =>
      simp only [strrchr, hxs] at h
      by_cases hxc : x = c
      · simp only [hxc, if_true, Option.some.injEq] at h
        simp only [List.length_cons]
        omega
      · simp [hxc] at h

theorem remove_extension_append_dot (base ext : List Char) (h : '.' ∉ ext) :
    remove_extension (base ++ '.' :: ext) = base := by
  simp [remove_extension, strrchr_append_cons base ext '.' h]

theorem remove_extension_length_le (filename : List Char) :
    (remove_extension filename).length ≤ filename.length := by
  unfold remove_extension
  cases strrchr filename '.' with
  | none => simp
  | some i => simp [List.length_take]

/-- C1: when `filename` contains a `.`, `remove_extension` writes the characters
that precede the last `.`: the name splits as `base ++ "." ++ ext` with no `.`
in `ext`, and every such split has the written string as its `base`. -/
theorem remove_extension_cuts_at_last_dot (filename : List Char) (h : '.' ∈ filename) :
    (∃ ext, '.' ∉ ext ∧ filename = remove_extension filename ++ ".".data ++ ext) ∧
    (∀ base ext, '.' ∉ ext → filename = base ++ ".".data ++ ext →
      remove_extension filename = base) := by
  constructor
  · cases hs : strrchr filename '.' with
    | none => exact absurd h ((strrchr_eq_none_iff filename '.').mp hs)
    | some i =>
      obtain ⟨ext, hext, hsplit⟩ := strrchr_some_split filename '.' i hs
      refine ⟨ext, hext, ?_⟩
      simp only [remove_extension, hs]
      simpa using hsplit
  · intro base ext hext hsplit
    rw [hsplit]
    simpa using remove_extension_append_dot base ext hext

/-- The file name `clip.final.mp4` has the base `clip.final`. -/
theorem remove_extension_cuts_at_last_dot_witness :
    '.' ∈ "clip.final.mp4".data ∧
    remove_extension "clip.final.mp4".data = "clip.final".data := by
  refine ⟨by decide, ?_⟩
  exact (remove_extension_cuts_at_last_dot "clip.final.mp4".data (by decide)).2
    "clip.final".data "mp4".data (by decide) (by decide)

/-- C2: a `filename` without any `.` is written into `base` unchanged. -/
theorem remove_extension_without_dot (filename : List Char) (h : '.' ∉ filename) :
    remove_extension filename = filename := by
  simp [remove_extension, (strrchr_eq_none_iff filename '.').mpr h]

/-- The file name `clip` is its own base. -/
theorem remove_extension_without_dot_witness :
    '.' ∉ "clip".data ∧ remove_extension "clip".data = "clip".data :=
  ⟨by decide, remove_extension_without_dot "clip".data (by decide)⟩

theorem mem_remove_extension (c : Char) (filename : List Char)
    (h : c ∈ remove_extension filename) : c ∈ filename := by
  unfold remove_extension at h
  cases hs : strrchr filename '.' with
  | none => simpa [hs] using h
  | some i =>
    rw [hs] at h
    exact List.mem_of_mem_take h

theorem basename_dir_file (dir f : List Char) (hf : f ≠ []) (hs : '/' ∉ f) :
    basename (dir ++ '/' :: f) = ⟨dir ++ '/' :: f, f⟩ := by
  have hlast := strrchr_append_cons dir f '/' hs
  have hpos : 0 < f.length := List.length_pos.mpr hf
  have hlen : dir.length + 1 < (dir ++ '/' :: f).length := by
    simp only [List.length_append, List.length_cons]
    omega
  cases hp : dir ++ '/' :: f with
  | nil => simp at hp
  | cons x xs =>
    rw [hp] at hlast hlen
    simp only [basename, hlast, hlen, if_true]
    rw [← hp]
    simp

/-- C3: for an argument `dir ++ "/" ++ f` with `f` non-empty and free of `/`, the
base name `main` computes (`basename`, then `remove_extension`) is
`remove_extension f`, whatever `dir` holds, and it contains no `/`. -/
theorem base_name_ignores_directory (dir f : List Char) (hf : f ≠ []) (hs : '/' ∉ f) :
    base_name (dir ++ "/".data ++ f) = remove_extension f ∧
    '/' ∉ base_name (dir ++ "/".data ++ f) := by
  have hb : basename (dir ++ "/".data ++ f) = ⟨dir ++ '/' :: f, f⟩ := by
    simpa using basename_dir_file dir f hf hs
  have heq : base_name (dir ++ "/".data ++ f) = remove_extension f := by
    simp only [base_name, hb]
  refine ⟨heq, ?_⟩
  rw [heq]
  exact fun hmem => hs (mem_remove_extension '/' f hmem)

/-- The arguments `/videos/holiday.mp4` and `/videos.d/clip` have the base names
`holiday` and `clip`. -/
theorem base_name_ignores_directory_witness :
    (base_name "/videos/holiday.mp4".data = "holiday".data ∧
      '/' ∉ base_name "/videos/holiday.mp4".data) ∧
    (base_name "/videos.d/clip".data = "clip".data ∧
      '/' ∉ base_name "/videos.d/clip".data) :=
  ⟨base_name_ignores_directory "/videos".data "holiday.mp4".data (by decide) (by decide),
   base_name_ignores_directory "/videos.d".data "clip".data (by decide) (by decide)⟩

/-- C5: with an argument count other than 2, `main` returns 1 and has called
neither `system` nor `remove`. -/
theorem main_usage_error (w : World) (argv : List (List Char)) (h : argv.length ≠ 2) :
    main w argv = some ⟨[], 1⟩ := by
  simp [main, h]

/-- Runs with one and with three arguments. -/
theorem main_usage_error_witness :
    ["convert".data].length ≠ 2 ∧
    ["convert".data, "a.mp4".data, "b.mp4".data].length ≠ 2 ∧
    main ⟨fun _ _ => 0, fun _ => 0⟩ ["convert".data] = some ⟨[], 1⟩ ∧
    main ⟨fun _ _ => 0, fun _ => 0⟩ ["convert".data, "a.mp4".data, "b.mp4".data] =
      some ⟨[], 1⟩ :=
  ⟨by decide, by decide, main_usage_error _ _ (by decide), main_usage_error _ _ (by decide)⟩

/-- C4: `main` stops at the first call of `system` that returns a nonzero status.
The run then consists of the calls of `system` up to and including that one, in
program order, with no later call and no call of `remove`, and the exit status
is 1.  The hypothesis says that the base name fits `base_name[256]`. -/
theorem main_stops_at_first_failure (w : World) (prog arg : List Char)
    (hfit : (base_name arg).length ≤ 255) :
    let command₁ := audio_command (input_path arg) (output_mp3 (base_name arg))
    let command₂ := palette_command (input_path arg) (palette_path (base_name arg))
    let command₃ :=
      gif_command (input_path arg) (palette_path (base_name arg)) (output_gif (base_name arg))
    (w.system 0 command₁ ≠ 0 →
      main w [prog, arg] = some ⟨[Event.system command₁], 1⟩) ∧
    (w.system 0 command₁ = 0 → w.system 1 command₂ ≠ 0 →
      main w [prog, arg] = some ⟨[Event.system command₁, Event.system command₂], 1⟩) ∧
    (w.system 0 command₁ = 0 → w.system 1 command₂ = 0 → w.system 2 command₃ ≠ 0 →
      main w [prog, arg] =
        some ⟨[Event.system command₁, Event.system command₂, Event.system command₃], 1⟩) := by
  have hnot : ¬ 256 ≤ (remove_extension (basename arg).name).length := by
    unfold base_name at hfit
    omega
  unfold input_path base_name
  refine ⟨?_, ?_, ?_⟩
  · intro h1
    simp [main, hnot, h1]
  · intro h1 h2
    simp [main, hnot, h1, h2]
  · intro h1 h2 h3
    simp [main, hnot, h1, h2, h3]

/-- C6: when the three calls of `system` return 0, the run is the audio command,
the palette command and the image command, in this order, followed by one call
of `remove` on the palette path handed to the palette command, and the exit
status is 0 whatever `remove` returns.  The hypothesis `hfit` says that the
base name fits `base_name[256]`. -/
theorem main_success (w : World) (prog arg : List Char)
    (hfit : (base_name arg).length ≤ 255)
    (h1 : w.system 0 (audio_command (input_path arg) (output_mp3 (base_name arg))) = 0)
    (h2 : w.system 1 (palette_command (input_path arg) (palette_path (base_name arg))) = 0)
    (h3 : w.system 2 (gif_command (input_path arg) (palette_path (base_name arg))
      (output_gif (base_name arg))) = 0) :
    main w [prog, arg] = some
      ⟨[Event.system (audio_command (input_path arg) (output_mp3 (base_name arg))),
        Event.system (palette_command (input_path arg) (palette_path (base_name arg))),
        Event.system (gif_command (input_path arg) (palette_path (base_name arg))
          (output_gif (base_name arg))),
        Event.remove (palette_path (base_name arg))], 0⟩ := by
  have hnot : ¬ 256 ≤ (remove_extension (basename arg).name).length := by
    unfold base_name at hfit
    omega
  unfold input_path base_name at *
  simp [main, hnot, h1, h2, h3]
/-- A run on `demo.mp4` in which palette generation fails: two calls, status 1. -/
theorem main_stops_at_first_failure_witness :
    main ⟨fun k _ => if k = 1 then 256 else 0, fun _ => 0⟩ ["convert".data, "demo.mp4".data] =
      some ⟨[Event.system (audio_command (input_path "demo.mp4".data)
               (output_mp3 (base_name "demo.mp4".data))),
             Event.system (palette_command (input_path "demo.mp4".data)
               (palette_path (base_name "demo.mp4".data)))], 1⟩ :=
  (main_stops_at_first_failure ⟨fun k _ => if k = 1 then 256 else 0, fun _ => 0⟩
    "convert".data "demo.mp4".data (by decide)).2.1 (by decide) (by decide)

/-- A run on `demo.mp4` in which every command succeeds and `remove` fails. -/
theorem main_success_witness :
    main ⟨fun _ _ => 0, fun _ => -1⟩ ["convert".data, "demo.mp4".data] = some
      ⟨[Event.system (audio_command (input_path "demo.mp4".data)
          (output_mp3 (base_name "demo.mp4".data))),
        Event.system (palette_command (input_path "demo.mp4".data)
          (palette_path (base_name "demo.mp4".data))),
        Event.system (gif_command (input_path "demo.mp4".data)
          (palette_path (base_name "demo.mp4".data)) (output_gif (base_name "demo.mp4".data))),
        Event.remove (palette_path (base_name "demo.mp4".data))], 0⟩ :=
  main_success ⟨fun _ _ => 0, fun _ => -1⟩ "convert".data "demo.mp4".data (by decide)
    rfl rfl rfl

/-! ## Formats and buffers -/

theorem snprintf_of_fits (size : Nat) (fmt : List Char) (args : List (List Char))
    (h : (formatS fmt args).length ≤ size - 1) :
    snprintf size fmt args = formatS fmt args :=
  List.take_of_length_le h

theorem formatS_mp3 (b : List Char) :
    formatS "core/%s.mp3".data [b] = "core/".data ++ b ++ ".mp3".data := rfl

theorem formatS_gif (b : List Char) :
    formatS "core/%s.gif".data [b] = "core/".data ++ b ++ ".gif".data := rfl

theorem formatS_palette (b : List Char) :
    formatS "core/%s_palette.png".data [b] = "core/".data ++ b ++ "_palette.png".data := rfl

theorem formatS_audio (i m : List Char) :
    formatS audio_format [i, m] =
      "ffmpeg -i \"".data ++ i ++ "\" -vn -acodec libmp3lame -q:a 2 \"".data ++ m ++
        "\" -y".data := by
  simp only [List.append_assoc]
  rfl

theorem formatS_palette_command (i p : List Char) :
    formatS palette_format [i, p] =
      "ffmpeg -i \"".data ++ i ++ "\" -t 10 -vf \"".data ++
        "fps=10,scale=250:250:force_original_aspect_ratio=increase,crop=250:250".data ++
        ",palettegen\" \"".data ++ p ++ "\" -y".data := by
  simp only [List.append_assoc]
  rfl

theorem formatS_gif_command (i p g : List Char) :
    formatS gif_format [i, p, g] =
      "ffmpeg -i \"".data ++ i ++ "\" -i \"".data ++ p ++ "\" -t 30 -lavfi \"".data ++
        "fps=10,scale=250:250:force_original_aspect_ratio=increase,crop=250:250".data ++
        "[x];[x][1:v]paletteuse\" \"".data ++ g ++ "\" -y".data := by
  simp only [List.append_assoc]
  rfl

theorem length_formatS_mp3 (b : List Char) :
    (formatS "core/%s.mp3".data [b]).length = b.length + 9 := by
  rw [formatS_mp3]
  simp only [List.length_append]
  rw [show "core/".data.length = 5 from rfl, show ".mp3".data.length = 4 from rfl]
  omega

theorem length_formatS_gif (b : List Char) :
    (formatS "core/%s.gif".data [b]).length = b.length + 9 := by
  rw [formatS_gif]
  simp only [List.length_append]
  rw [show "core/".data.length = 5 from rfl, show ".gif".data.length = 4 from rfl]
  omega

theorem length_formatS_palette (b : List Char) :
    (formatS "core/%s_palette.png".data [b]).length = b.length + 17 := by
  rw [formatS_palette]
  simp only [List.length_append]
  rw [show "core/".data.length = 5 from rfl, show "_palette.png".data.length = 12 from rfl]
  omega

theorem length_formatS_audio (i m : List Char) :
    (formatS audio_format [i, m]).length = i.length + m.length + 48 := by
  rw [formatS_audio]
  simp only [List.length_append]
  rw [show "ffmpeg -i \"".data.length = 11 from rfl,
    show "\" -vn -acodec libmp3lame -q:a 2 \"".data.length = 33 from rfl,
    show "\" -y".data.length = 4 from rfl]
  omega

theorem length_formatS_palette_command (i p : List Char) :
    (formatS palette_format [i, p]).length = i.length + p.length + 112 := by
  rw [formatS_palette_command]
  simp only [List.length_append]
  rw [show "ffmpeg -i \"".data.length = 11 from rfl,
    show "\" -t 10 -vf \"".data.length = 13 from rfl,
    show "fps=10,scale=250:250:force_original_aspect_ratio=increase,crop=250:250".data.length
      = 70 from rfl,
    show ",palettegen\" \"".data.length = 14 from rfl,
    show "\" -y".data.length = 4 from rfl]
  omega

theorem length_formatS_gif_command (i p g : List Char) :
    (formatS gif_format [i, p, g]).length = i.length + p.length + g.length + 132 := by
  rw [formatS_gif_command]
  simp only [List.length_append]
  rw [show "ffmpeg -i \"".data.length = 11 from rfl,
    show "\" -i \"".data.length = 6 from rfl,
    show "\" -t 30 -lavfi \"".data.length = 16 from rfl,
    show "fps=10,scale=250:250:force_original_aspect_ratio=increase,crop=250:250".data.length
      = 70 from rfl,
    show "[x];[x][1:v]paletteuse\" \"".data.length = 25 from rfl,
    show "\" -y".data.length = 4 from rfl]
  omega

/-- A base name that fits `base_name[256]` is never cut in the derived paths. -/
theorem paths_of_fitting_base (b : List Char) (h : b.length ≤ 255) :
    output_mp3 b = "core/".data ++ b ++ ".mp3".data ∧
    output_gif b = "core/".data ++ b ++ ".gif".data ∧
    palette_path b = "core/".data ++ b ++ "_palette.png".data := by
  refine ⟨?_, ?_, ?_⟩
  · rw [← formatS_mp3]
    exact snprintf_of_fits _ _ _ (by rw [length_formatS_mp3]; omega)
  · rw [← formatS_gif]
    exact snprintf_of_fits _ _ _ (by rw [length_formatS_gif]; omega)
  · rw [← formatS_palette]
    exact snprintf_of_fits _ _ _ (by rw [length_formatS_palette]; omega)

/-- C7: for a base name `b` (one that fits `base_name[256]`), the three derived
paths are `core/b.mp3`, `core/b.gif` and `core/b_palette.png`, with nothing
cut by `snprintf`. -/
theorem derived_paths (b : List Char) (h : b.length ≤ 255) :
    output_mp3 b = "core/".data ++ b ++ ".mp3".data ∧
    output_gif b = "core/".data ++ b ++ ".gif".data ∧
    palette_path b = "core/".data ++ b ++ "_palette.png".data :=
  paths_of_fitting_base b h

/-- The argument `demo.mp4` gives `core/demo.mp3`, `core/demo.gif` and
`core/demo_palette.png`. -/
theorem derived_paths_witness :
    base_name "demo.mp4".data = "demo".data ∧
    output_mp3 (base_name "demo.mp4".data) = "core/demo.mp3".data ∧
    output_gif (base_name "demo.mp4".data) = "core/demo.gif".data ∧
    palette_path (base_name "demo.mp4".data) = "core/demo_palette.png".data := by
  have h := derived_paths (base_name "demo.mp4".data) (by decide)
  exact ⟨by decide, h.1.trans (by decide), h.2.1.trans (by decide), h.2.2.trans (by decide)⟩

/-! ## `basename`: sizes, and when the argument is left as it was -/

theorem basename_lengths (path : List Char) :
    (basename path).name.length ≤ max 1 path.length ∧
    (basename path).path.length ≤ path.length := by
  cases path with
  | nil => simp [basename]
  | cons hd tl =>
    have hq := List.IsPrefix.length_le
      ( List.rdropWhile_prefix (fun c => decide (c = '/')) (l := hd :: tl))
    simp only [basename]
    generalize List.rdropWhile (fun c => decide (c = '/')) (hd :: tl) = q at hq ⊢
    simp only [List.length_cons] at hq ⊢
    cases strrchr (hd :: tl) '/' with
    | none => simp
    | some i =>
      by_cases hlt : i + 1 < tl.length + 1
      · simp only [hlt, if_true, List.length_drop, List.length_cons]
        omega
      · simp only [hlt, if_false]
        cases q with
        | nil => simp
        | cons a b =>
          simp only [List.length_cons] at hq
          cases strrchr (a :: b) '/' with
          | none =>
            simp only [List.length_cons]
            omega
          | some j =>
            simp only [List.length_drop, List.length_cons]
            omega

theorem basename_path_of_no_trailing_slash (path : List Char)
    (h : path.getLast? ≠ some '/') : (basename path).path = path := by
  cases path with
  | nil => rfl
  | cons hd tl =>
    simp only [basename]
    cases hs : strrchr (hd :: tl) '/' with
    | none => rfl
    | some i =>
      by_cases hlt : i + 1 < (hd :: tl).length
      · simp only [hlt, if_true]
      · exfalso
        obtain ⟨ext, -, hsplit⟩ := strrchr_some_split _ '/' i hs
        have hlen := congrArg List.length hsplit
        have hile := strrchr_lt_length _ '/' i hs
        simp only [List.length_cons] at hile hlt
        simp only [List.length_append, List.length_take, List.length_cons,
          Nat.min_eq_left (Nat.le_of_lt hile)] at hlen
        have hext : ext = [] := by
          apply List.eq_nil_of_length_eq_zero
          omega
        apply h
        rw [hsplit, hext]
        simp

/-- The content of `input_path` is the program argument itself whenever the
argument does not end in `/`. -/
theorem input_path_of_no_trailing_slash (arg : List Char)
    (h : arg.getLast? ≠ some '/') : input_path arg = arg :=
  basename_path_of_no_trailing_slash arg h

theorem base_name_length_le (arg : List Char) :
    (base_name arg).length ≤ max 1 arg.length :=
  le_trans (remove_extension_length_le _) (basename_lengths arg).1

theorem input_path_length_le (arg : List Char) :
    (input_path arg).length ≤ arg.length :=
  (basename_lengths arg).2

theorem basename_of_no_slash (path : List Char) (hne : path ≠ []) (h : '/' ∉ path) :
    basename path = ⟨path, path⟩ := by
  cases path with
  | nil => exact absurd rfl hne
  | cons hd tl => simp only [basename, (strrchr_eq_none_iff (hd :: tl) '/').mpr h]

/-- C9: a file name `"." ++ s` with no `.` in `s` has the empty base name, not the
full name, so that the derived paths are `core/.mp3`, `core/.gif` and
`core/_palette.png`; given as the program argument (no `/` in `s`), it makes
`main` compute the empty `base_name`. -/
theorem leading_dot_gives_empty_base (s : List Char) (h : '.' ∉ s) :
    remove_extension (".".data ++ s) = [] ∧
    remove_extension (".".data ++ s) ≠ ".".data ++ s ∧
    output_mp3 (remove_extension (".".data ++ s)) = "core/.mp3".data ∧
    output_gif (remove_extension (".".data ++ s)) = "core/.gif".data ∧
    palette_path (remove_extension (".".data ++ s)) = "core/_palette.png".data ∧
    ('/' ∉ s → base_name (".".data ++ s) = []) := by
  have hb : remove_extension (".".data ++ s) = [] := remove_extension_append_dot [] s h
  refine ⟨hb, ?_, ?_, ?_, ?_, ?_⟩
  · rw [hb]
    exact fun e => List.noConfusion e
  · rw [hb]; rfl
  · rw [hb]; rfl
  · rw [hb]; rfl
  · intro hs
    have hmem : '/' ∉ ".".data ++ s := by
      intro hm
      rcases List.mem_append.mp hm with hm | hm
      · exact absurd hm (by decide)
      · exact hs hm
    have hne : ".".data ++ s ≠ [] := fun e => List.noConfusion e
    rw [base_name, basename_of_no_slash _ hne hmem]
    exact hb

/-- The file name `.env`. -/
theorem leading_dot_gives_empty_base_witness :
    '.' ∉ "env".data ∧
    remove_extension ".env".data = [] ∧
    output_mp3 (remove_extension ".env".data) = "core/.mp3".data ∧
    output_gif (remove_extension ".env".data) = "core/.gif".data ∧
    palette_path (remove_extension ".env".data) = "core/_palette.png".data ∧
    base_name ".env".data = [] :=
  have h := leading_dot_gives_empty_base "env".data (by decide)
  ⟨by decide, h.1, h.2.2.1, h.2.2.2.1, h.2.2.2.2.1, h.2.2.2.2.2 (by decide)⟩

/-- Whenever nothing is cut, the three commands are the formats of the source
with `input_path` and the derived paths put in the place of the `%s`. -/
theorem commands_are_format_instances (arg : List Char)
    (hb : (base_name arg).length ≤ 255)
    (hc : (input_path arg).length + 2 * (base_name arg).length + 158 ≤ 1023) :
    audio_command (input_path arg) (output_mp3 (base_name arg)) =
      "ffmpeg -i \"".data ++ input_path arg ++ "\" -vn -acodec libmp3lame -q:a 2 \"".data ++
        ("core/".data ++ base_name arg ++ ".mp3".data) ++ "\" -y".data ∧
    palette_command (input_path arg) (palette_path (base_name arg)) =
      "ffmpeg -i \"".data ++ input_path arg ++ "\" -t 10 -vf \"".data ++
        "fps=10,scale=250:250:force_original_aspect_ratio=increase,crop=250:250".data ++
        ",palettegen\" \"".data ++ ("core/".data ++ base_name arg ++ "_palette.png".data) ++
        "\" -y".data ∧
    gif_command (input_path arg) (palette_path (base_name arg)) (output_gif (base_name arg)) =
      "ffmpeg -i \"".data ++ input_path arg ++ "\" -i \"".data ++
        ("core/".data ++ base_name arg ++ "_palette.png".data) ++ "\" -t 30 -lavfi \"".data ++
        "fps=10,scale=250:250:force_original_aspect_ratio=increase,crop=250:250".data ++
        "[x];[x][1:v]paletteuse\" \"".data ++ ("core/".data ++ base_name arg ++ ".gif".data) ++
        "\" -y".data := by
  obtain ⟨hmp3, hgif, hpal⟩ := paths_of_fitting_base (base_name arg) hb
  have lmp3 : (output_mp3 (base_name arg)).length = (base_name arg).length + 9 := by
    rw [hmp3, ← formatS_mp3, length_formatS_mp3]
  have lgif : (output_gif (base_name arg)).length = (base_name arg).length + 9 := by
    rw [hgif, ← formatS_gif, length_formatS_gif]
  have lpal : (palette_path (base_name arg)).length = (base_name arg).length + 17 := by
    rw [hpal, ← formatS_palette, length_formatS_palette]
  refine ⟨?_, ?_, ?_⟩
  · rw [← hmp3, ← formatS_audio]
    exact snprintf_of_fits _ _ _ (by rw [length_formatS_audio, lmp3]; omega)
  · rw [← hpal, ← formatS_palette_command]
    exact snprintf_of_fits _ _ _ (by rw [length_formatS_palette_command, lpal]; omega)
  · rw [← hpal, ← hgif, ← formatS_gif_command]
    exact snprintf_of_fits _ _ _ (by rw [length_formatS_gif_command, lpal, lgif]; omega)

/-- C10: for an argument of at most 255 characters no buffer of `main`
overflows or truncates: the base name has at most 255 characters (so the run
is defined), each derived path has at most 272 and each command at most 1023,
and every `snprintf` result is the whole expansion of its format. -/
theorem short_argument_fits_every_buffer (w : World) (prog arg : List Char)
    (h : arg.length ≤ 255) :
    (base_name arg).length ≤ 255 ∧
    (main w [prog, arg]).isSome ∧
    ((output_mp3 (base_name arg)).length ≤ 272 ∧
      output_mp3 (base_name arg) = formatS "core/%s.mp3".data [base_name arg]) ∧
    ((output_gif (base_name arg)).length ≤ 272 ∧
      output_gif (base_name arg) = formatS "core/%s.gif".data [base_name arg]) ∧
    ((palette_path (base_name arg)).length ≤ 272 ∧
      palette_path (base_name arg) = formatS "core/%s_palette.png".data [base_name arg]) ∧
    ((audio_command (input_path arg) (output_mp3 (base_name arg))).length ≤ 1023 ∧
      audio_command (input_path arg) (output_mp3 (base_name arg)) =
        formatS audio_format [input_path arg, output_mp3 (base_name arg)]) ∧
    ((palette_command (input_path arg) (palette_path (base_name arg))).length ≤ 1023 ∧
      palette_command (input_path arg) (palette_path (base_name arg)) =
        formatS palette_format [input_path arg, palette_path (base_name arg)]) ∧
    ((gif_command (input_path arg) (palette_path (base_name arg))
        (output_gif (base_name arg))).length ≤ 1023 ∧
      gif_command (input_path arg) (palette_path (base_name arg)) (output_gif (base_name arg)) =
        formatS gif_format
          [input_path arg, palette_path (base_name arg), output_gif (base_name arg)]) := by
  have hb : (base_name arg).length ≤ 255 := by
    have := base_name_length_le arg
    omega
  have hi : (input_path arg).length ≤ 255 := le_trans (input_path_length_le arg) h
  have emp3 : output_mp3 (base_name arg) = formatS "core/%s.mp3".data [base_name arg] :=
    snprintf_of_fits _ _ _ (by rw [length_formatS_mp3]; omega)
  have egif : output_gif (base_name arg) = formatS "core/%s.gif".data [base_name arg] :=
    snprintf_of_fits _ _ _ (by rw [length_formatS_gif]; omega)
  have epal : palette_path (base_name arg) =
      formatS "core/%s_palette.png".data [base_name arg] :=
    snprintf_of_fits _ _ _ (by rw [length_formatS_palette]; omega)
  have lmp3 : (output_mp3 (base_name arg)).length = (base_name arg).length + 9 := by
    rw [emp3, length_formatS_mp3]
  have lgif : (output_gif (base_name arg)).length = (base_name arg).length + 9 := by
    rw [egif, length_formatS_gif]
  have lpal : (palette_path (base_name arg)).length = (base_name arg).length + 17 := by
    rw [epal, length_formatS_palette]
  have ea : audio_command (input_path arg) (output_mp3 (base_name arg)) =
      formatS audio_format [input_path arg, output_mp3 (base_name arg)] :=
    snprintf_of_fits _ _ _ (by rw [length_formatS_audio, lmp3]; omega)
  have ep : palette_command (input_path arg) (palette_path (base_name arg)) =
      formatS palette_format [input_path arg, palette_path (base_name arg)] :=
    snprintf_of_fits _ _ _ (by rw [length_formatS_palette_command, lpal]; omega)
  have eg : gif_command (input_path arg) (palette_path (base_name arg))
      (output_gif (base_name arg)) =
      formatS gif_format
        [input_path arg, palette_path (base_name arg), output_gif (base_name arg)] :=
    snprintf_of_fits _ _ _ (by rw [length_formatS_gif_command, lpal, lgif]; omega)
  have hsome : (main w [prog, arg]).isSome := by
    have hnot : ¬ 256 ≤ (remove_extension (basename arg).name).length := by
      unfold base_name at hb
      omega
    simp only [main, List.length_cons, List.length_nil, ne_eq, not_true_eq_false, if_false,
      List.getD_cons_succ, List.getD_cons_zero, hnot]
    split
    · rfl
    · split
      · rfl
      · split <;> rfl
  refine ⟨hb, hsome, ⟨by omega, emp3⟩, ⟨by omega, egif⟩, ⟨by omega, epal⟩, ⟨?_, ea⟩,
    ⟨?_, ep⟩, ⟨?_, eg⟩⟩
  · rw [ea, length_formatS_audio, lmp3]; omega
  · rw [ep, length_formatS_palette_command, lpal]; omega
  · rw [eg, length_formatS_gif_command, lpal, lgif]; omega

/-- The argument `/videos/holiday.mp4`. -/
theorem short_argument_fits_every_buffer_witness :
    "/videos/holiday.mp4".data.length ≤ 255 ∧
    (main ⟨fun _ _ => 0, fun _ => 0⟩ ["convert".data, "/videos/holiday.mp4".data]).isSome ∧
    (gif_command (input_path "/videos/holiday.mp4".data)
      (palette_path (base_name "/videos/holiday.mp4".data))
      (output_gif (base_name "/videos/holiday.mp4".data))).length ≤ 1023 :=
  have h := short_argument_fits_every_buffer ⟨fun _ _ => 0, fun _ => 0⟩ "convert".data
    "/videos/holiday.mp4".data (by decide)
  ⟨by decide, h.2.1, h.2.2.2.2.2.2.2.1⟩

/-- C8, at the argument `clip.mp4/`: `basename` cuts the trailing `/` off the
buffer of the caller, so the three commands read `clip.mp4` and not the path that was
given. -/
theorem trailing_slash_argument_is_rewritten :
    input_path "clip.mp4/".data = "clip.mp4".data ∧
    main ⟨fun _ _ => 0, fun _ => 0⟩ ["convert".data, "clip.mp4/".data] = some
      ⟨[Event.system
          "ffmpeg -i \"clip.mp4\" -vn -acodec libmp3lame -q:a 2 \"core/clip.mp3\" -y".data,
        Event.system
          "ffmpeg -i \"clip.mp4\" -t 10 -vf \"fps=10,scale=250:250:force_original_aspect_ratio=increase,crop=250:250,palettegen\" \"core/clip_palette.png\" -y".data,
        Event.system
          "ffmpeg -i \"clip.mp4\" -i \"core/clip_palette.png\" -t 30 -lavfi \"fps=10,scale=250:250:force_original_aspect_ratio=increase,crop=250:250[x];[x][1:v]paletteuse\" \"core/clip.gif\" -y".data,
        Event.remove "core/clip_palette.png".data], 0⟩ :=
  ⟨rfl, rfl⟩

end Convert
